import Mathlib

/-!
Verification development for the video_transcoder repository.

The definitions below are a shallow embedding, translated function by
function from the JavaScript sources:

* src/utils/ffmpeg.js            (transcodeVideo)
* src/workers/uploadWorker.js    (stage derivation, hls prefix and url,
                                  failure path of processJob)
* src/workers/transcodeWorker.js (getContentType, failure path)
* src/config/queue.js            (queue default job options, queue events)
* src/controllers/uploadController.js (HLS proxy rewrites, segment proxy)
* src/controllers/asyncUploadController.js (getJobStatus, deleteJob)
* src/models/Job.js              (Job schema defaults)

Strings are modelled as Lean String or List Char; playlists are split on
the newline character, matching the JavaScript multiline-regex semantics
for LF-separated playlist text.
-/

namespace VideoTranscoder

/-! ## Encoder driver: src/utils/ffmpeg.js -/

/-- Per-resolution encoding options, from the fixed `resolutions` table at
the top of transcodeVideo in src/utils/ffmpeg.js. -/
structure ResOpts where
  width : Nat
  height : Nat
  bitrate : String
  audioBitrate : String
deriving DecidableEq, Repr

/-- The fixed resolution table of src/utils/ffmpeg.js, in the iteration
order of the object literal. -/
def resolutionTable : List (String × ResOpts) :=
  [ ("360p",  ⟨640, 360, "800k", "96k"⟩)
  , ("480p",  ⟨854, 480, "1400k", "128k"⟩)
  , ("720p",  ⟨1280, 720, "2800k", "128k"⟩)
  , ("1080p", ⟨1920, 1080, "5000k", "192k"⟩) ]

/-- One ffmpeg invocation performed by transcodeVideo: the rendition tag,
the variant playlist path, the segment filename pattern and the argument
vector passed to the ffmpeg binary. -/
structure FfmpegInvocation where
  resolution : String
  playlistPath : String
  segmentPattern : String
  args : List String
deriving DecidableEq, Repr

/-- The argument vector built for one resolution in transcodeVideo
(src/utils/ffmpeg.js).  Note that the vector contains no `-preset` and no
`-threads` flag. -/
def ffmpegArgs (inputPath playlistPath segmentPattern : String)
    (opts : ResOpts) : List String :=
  [ "-y"
  , "-i", inputPath
  , "-vf", "scale=w=" ++ toString opts.width ++ ":h=" ++ toString opts.height
  , "-c:v", "libx264"
  , "-b:v", opts.bitrate
  , "-c:a", "aac"
  , "-b:a", opts.audioBitrate
  , "-f", "hls"
  , "-hls_time", "15"
  , "-hls_playlist_type", "vod"
  , "-hls_segment_filename", segmentPattern
  , "-start_number", "0"
  , playlistPath ]

/-- The sequence of ffmpeg invocations performed by a successful run of
transcodeVideo (src/utils/ffmpeg.js).  The source function is declared as
`(inputPath, outputDir) => ...` and loops over the whole fixed resolution
table; `path.join` is modelled as concatenation with a slash. -/
def transcodeVideo (inputPath outputDir : String) : List FfmpegInvocation :=
  resolutionTable.map (fun p =>
    { resolution := p.1
    , playlistPath := outputDir ++ "/" ++ p.1 ++ "/index.m3u8"
    , segmentPattern := outputDir ++ "/" ++ p.1 ++ "/segment%03d.ts"
    , args := ffmpegArgs inputPath (outputDir ++ "/" ++ p.1 ++ "/index.m3u8")
        (outputDir ++ "/" ++ p.1 ++ "/segment%03d.ts") p.2 })

/-- Rendition tags encoded by a run, in order. -/
def encodedResolutions (invs : List FfmpegInvocation) : List String :=
  invs.map (fun inv => inv.resolution)

/-- Variant playlist paths written by a run. -/
def writtenPlaylistPaths (invs : List FfmpegInvocation) : List String :=
  invs.map (fun inv => inv.playlistPath)

/-! ## Worker stage derivation: src/workers/uploadWorker.js -/

/-- The encoder parameters the worker derives from the job's stage. -/
structure TranscodeSpec where
  targetResolutions : List String
  playlistResolutions : List String
  cpuThreads : Nat
  preset : String
deriving DecidableEq, Repr

/-- Stage to encoder parameters, from processJob in
src/workers/uploadWorker.js: transcodeType fast selects 360p only with
preset ultrafast and unrestricted threads, every other value selects the
three HD renditions with preset medium and two threads. -/
def deriveSpec (transcodeType : String) : TranscodeSpec :=
  if transcodeType = "fast" then
    { targetResolutions := ["360p"]
    , playlistResolutions := ["360p"]
    , cpuThreads := 0
    , preset := "ultrafast" }
  else
    { targetResolutions := ["480p", "720p", "1080p"]
    , playlistResolutions := ["360p", "480p", "720p", "1080p"]
    , cpuThreads := 2
    , preset := "medium" }

/-- The ffmpeg invocations a worker job actually causes.  The worker call
site passes the derived options object as a third argument, but the
declared signature of transcodeVideo has only two parameters, so the
options are discarded and the run is independent of the stage. -/
def workerTranscodeInvocations (inputPath tempDir : String)
    (transcodeType : String) : List FfmpegInvocation :=
  let _spec := deriveSpec transcodeType
  transcodeVideo inputPath tempDir

/-- The path the spec expects the master playlist at, relative to the
output directory of an encoder run. -/
def masterPlaylistPath (outputDir : String) : String :=
  outputDir ++ "/master.m3u8"

/-! ## Retry accounting: Job schema, worker failure path, queue events -/

/-- Job lifecycle states, from the enum of the status field in
src/models/Job.js. -/
inductive JobStatus where
  | pending
  | queued
  | processing
  | completed
  | failed
deriving DecidableEq, Repr

/-- The slice of a Job document involved in retry accounting, with the
schema defaults of src/models/Job.js: attempts 0, maxAttempts 3. -/
structure JobRetryState where
  status : JobStatus
  attempts : Nat
  maxAttempts : Nat
deriving DecidableEq, Repr

/-- A freshly created Job record under the schema defaults. -/
def newJobRetryState : JobRetryState :=
  { status := .queued, attempts := 0, maxAttempts := 3 }

/-- The catch block of processJob (src/workers/transcodeWorker.js and the
worker half of src/workers/uploadWorker.js): on every failed processing
attempt the Job is updated with status failed and an unconditional
increment of attempts. -/
def workerFailureUpdate (j : JobRetryState) : JobRetryState :=
  { j with status := .failed, attempts := j.attempts + 1 }

/-- The queue events listener for the failed event in initQueueEvents
(src/config/queue.js, the variant with QueueEvents): it again sets status
failed and unconditionally increments attempts. -/
def queueFailedEventUpdate (j : JobRetryState) : JobRetryState :=
  { j with status := .failed, attempts := j.attempts + 1 }

/-- The queue's per-job retry limit, from defaultJobOptions attempts of
the transcode queue in src/config/queue.js. -/
def queueDefaultAttempts : Nat := 3

/-- The Job-record updates produced by a job that throws on every
processing attempt: the worker's catch block runs once per attempt, up to
the queue retry limit, and when the queue finally moves the job to the
failed state the API-side failed event listener fires once more. -/
def runPermanentFailure (j : JobRetryState) : JobRetryState :=
  queueFailedEventUpdate (workerFailureUpdate^[queueDefaultAttempts] j)

/-! ## Job store and admission API: src/controllers/asyncUploadController.js -/

/-- The slice of a Job document read by the delete and status handlers. -/
structure JobDoc where
  jobId : String
  status : JobStatus
  attempts : Nat
  maxAttempts : Nat
  errorMsg : Option String
  progress : Nat
deriving DecidableEq, Repr

/-- Lookup by jobId, modelling the Job.findOne call on a store of
documents. -/
def findJob (store : List JobDoc) (jobId : String) : Option JobDoc :=
  store.find? (fun j => j.jobId = jobId)

/-- Removal of the first document with the given jobId, modelling the
Job.deleteOne call (jobId carries a unique index, so at most one document
matches). -/
def removeJobFirst : List JobDoc → String → List JobDoc
  | [], _ => []
  | j :: rest, jobId =>
    if j.jobId = jobId then rest else j :: removeJobFirst rest jobId

/-- The deleteJob handler of src/controllers/asyncUploadController.js:
unknown jobId answers 404, a processing job answers 400 and is kept, any
other job is deleted from the store with answer 200.  The result is the
HTTP status together with the store after the request. -/
def deleteJob (store : List JobDoc) (jobId : String) : Nat × List JobDoc :=
  match findJob store jobId with
  | none => (404, store)
  | some j =>
    if j.status = .processing then (400, store)
    else (200, removeJobFirst store jobId)

/-- The response of the getJobStatus handler, restricted to the failure
fields the claim is about.  A field holds none when the handler does not
put it on the response object. -/
structure JobStatusView where
  status : JobStatus
  progress : Nat
  attemptsField : Option Nat
  maxAttemptsField : Option Nat
  errorField : Option String
  canRetryField : Option Bool
deriving DecidableEq, Repr

/-- The getJobStatus handler of src/controllers/asyncUploadController.js,
applied to a found document: the attempts, maxAttempts, error and
canRetry fields are attached exactly when the document's status is
failed, with canRetry computed as attempts < maxAttempts. -/
def getJobStatusView (j : JobDoc) : JobStatusView :=
  let base : JobStatusView :=
    { status := j.status, progress := j.progress
    , attemptsField := none, maxAttemptsField := none
    , errorField := none, canRetryField := none }
  if j.status = .failed then
    { base with
      attemptsField := some j.attempts
    , maxAttemptsField := some j.maxAttempts
    , errorField := j.errorMsg
    , canRetryField := some (decide (j.attempts < j.maxAttempts)) }
  else base

/-! ## HLS segment proxy: proxyHlsSegment in src/controllers/uploadController.js -/

/-- What the object store yields for a segment key: the object is absent,
the metadata request itself fails, or the object is present with a body,
whose streaming may fail after a given number of bytes. -/
inductive SegmentObject where
  | missing
  | headFailure
  | available (body : List Nat) (streamFailureAfter : Option Nat)
deriving DecidableEq, Repr

/-- A segment response: the HTTP status, whether the body is the JSON
error document, and the segment bytes written to the client. -/
structure SegmentResponse where
  status : Nat
  jsonError : Bool
  bytes : List Nat
deriving DecidableEq, Repr

/-- The proxyHlsSegment handler of src/controllers/uploadController.js.
Any rejection of the headObject call (a missing object included) lands in
the catch block, which answers 500 with a JSON error body.  When the head
call succeeds the handler streams the object: a stream error before the
first chunk answers 500 (headers not yet sent), a stream error later
leaves a truncated 200 body, and otherwise the full body is sent with
200. -/
def proxyHlsSegment (obj : SegmentObject) : SegmentResponse :=
  match obj with
  | .missing => { status := 500, jsonError := true, bytes := [] }
  | .headFailure => { status := 500, jsonError := true, bytes := [] }
  | .available body streamFailureAfter =>
    match streamFailureAfter with
    | none => { status := 200, jsonError := false, bytes := body }
    | some k =>
      if k = 0 then { status := 500, jsonError := true, bytes := [] }
      else { status := 200, jsonError := false, bytes := body.take k }

/-! ## Content type inference: getContentType in src/workers/transcodeWorker.js -/

/-- The lowercased extension of a path, modelling
path.extname(filePath).toLowerCase(): the basename is the text after the
last slash; its extension runs from its last dot to its end, and is empty
when the basename has no dot or only a leading dot. -/
def extnameLower (filePath : String) : List Char :=
  let rb := filePath.data.reverse.takeWhile (fun c => !(c = '/'))
  let et := rb.takeWhile (fun c => !(c = '.'))
  if et.length + 1 < rb.length then ('.' :: et.reverse).map Char.toLower
  else []

/-- The getContentType helper of src/workers/transcodeWorker.js (the same
helper appears in src/workers/uploadWorker.js): a five-way dispatch on
the lowercased extension. -/
def getContentType (filePath : String) : String :=
  let ext := extnameLower filePath
  if ext = ".m3u8".data then "application/vnd.apple.mpegurl"
  else if ext = ".ts".data then "video/MP2T"
  else if ext = ".png".data then "image/png"
  else if ext = ".jpg".data ∨ ext = ".jpeg".data then "image/jpeg"
  else "application/octet-stream"

/-! ## Playlist text as lines

The JavaScript proxy handlers rewrite playlist text with multiline
regular expressions anchored at line boundaries.  An LF-separated text is
modelled as its list of lines; splitting and joining are inverse on
newline-free lines. -/

/-- Split a character list at every newline character. -/
def splitOnNl : List Char → List (List Char)
  | [] => [[]]
  | c :: cs =>
    if c = '\n' then [] :: splitOnNl cs
    else
      match splitOnNl cs with
      | [] => [[c]]
      | l :: ls => (c :: l) :: ls

/-- Join lines with newline characters. -/
def joinNl : List (List Char) → List Char
  | [] => []
  | [l] => l
  | l :: ls => l ++ '\n' :: joinNl ls

theorem splitOnNl_ne_nil (s : List Char) : splitOnNl s ≠ [] := by
  induction s with
  | nil => simp [splitOnNl]
  | cons c cs ih =>
    simp only [splitOnNl]
    split
    · simp
    · rcases h : splitOnNl cs with _ | ⟨l, ls⟩
      · exact absurd h ih
      · simp [h]

theorem splitOnNl_no_nl (s : List Char) :
    ∀ l ∈ splitOnNl s, '\n' ∉ l := by
  induction s with
  | nil =>
    intro l hl
    simp [splitOnNl] at hl
    simp [hl]
  | cons c cs ih =>
    intro l hl
    by_cases hc : c = '\n'
    · rw [show splitOnNl (c :: cs) = [] :: splitOnNl cs by
        simp [splitOnNl, hc]] at hl
      rcases List.mem_cons.mp hl with rfl | hl
      · simp
      · exact ih l hl
    · rcases hsp : splitOnNl cs with _ | ⟨m, ms⟩
      · exact absurd hsp (splitOnNl_ne_nil cs)
      · rw [show splitOnNl (c :: cs) = (c :: m) :: ms by
          simp [splitOnNl, hc, hsp]] at hl
        rcases List.mem_cons.mp hl with rfl | hl
        · intro hmem
          rcases List.mem_cons.mp hmem with h1 | h1
          · exact hc h1.symm
          · exact ih m (by rw [hsp]; simp) h1
        · exact ih l (by rw [hsp]; simp [hl])

theorem splitOnNl_of_no_nl (l : List Char) (h : '\n' ∉ l) :
    splitOnNl l = [l] := by
  induction l with
  | nil => rfl
  | cons c cs ih =>
    simp only [List.mem_cons, not_or] at h
    simp only [splitOnNl]
    rw [if_neg (fun hc => h.1 hc.symm), ih h.2]

theorem splitOnNl_append_nl (l t : List Char) (h : '\n' ∉ l) :
    splitOnNl (l ++ '\n' :: t) = l :: splitOnNl t := by
  induction l with
  | nil => simp [splitOnNl]
  | cons c cs ih =>
    simp only [List.mem_cons, not_or] at h
    rw [show (c :: cs) ++ '\n' :: t = c :: (cs ++ '\n' :: t) from rfl]
    simp only [splitOnNl]
    rw [if_neg (fun hc => h.1 hc.symm), ih h.2]

theorem splitOnNl_joinNl (ls : List (List Char)) (hne : ls ≠ [])
    (h : ∀ l ∈ ls, '\n' ∉ l) : splitOnNl (joinNl ls) = ls := by
  induction ls with
  | nil => exact absurd rfl hne
  | cons l ls ih =>
    rcases ls with _ | ⟨m, ms⟩
    · exact splitOnNl_of_no_nl l (h l (by simp))
    · have h1 : joinNl (l :: m :: ms) = l ++ '\n' :: joinNl (m :: ms) := rfl
      rw [h1, splitOnNl_append_nl l _ (h l (by simp))]
      rw [ih (by simp) (fun x hx => h x (by simp [hx]))]

/-! ## HLS variant playlist rewrite: proxyHlsPlaylist in
src/controllers/uploadController.js -/

/-- Does a line consist exactly of the text segment, one or more decimal
digits and the suffix .ts?  This is the multiline regular expression
anchored pattern of proxyHlsPlaylist. -/
def isSegmentTsLine (l : List Char) : Bool :=
  ("segment".data.isPrefixOf l) &&
    (let r := l.drop 7
     let ds := r.takeWhile Char.isDigit
     (!ds.isEmpty) && (r.drop ds.length = ".ts".data))

/-- The absolute-URI text put in front of a matched segment line by
proxyHlsPlaylist, built from the request's base URL and path
parameters. -/
def segmentRewriteBase (baseUrl courseId lessonId videoId quality : String) :
    List Char :=
  (baseUrl ++ "/api/upload/hls/" ++ courseId ++ "/" ++ lessonId ++ "/"
    ++ videoId ++ "/" ++ quality ++ "/").data

/-- Rewrite of one playlist line: a line matching the segment pattern is
prefixed with the proxy URI text, every other line is left unchanged. -/
def rewriteSegmentLine (pre l : List Char) : List Char :=
  if isSegmentTsLine l then pre ++ l else l

/-- The playlist rewrite of proxyHlsPlaylist applied to the fetched
variant playlist text. -/
def proxyHlsPlaylistRewrite (baseUrl courseId lessonId videoId quality : String)
    (content : List Char) : List Char :=
  joinNl ((splitOnNl content).map
    (rewriteSegmentLine
      (segmentRewriteBase baseUrl courseId lessonId videoId quality)))

/-! ## HLS master playlist rewrite: proxyHlsMaster in
src/controllers/uploadController.js -/

/-- Does a line consist exactly of one or more decimal digits, the letter
p, a slash and the text index.m3u8?  This is the multiline anchored
pattern of proxyHlsMaster. -/
def isMasterVariantLine (l : List Char) : Bool :=
  let ds := l.takeWhile Char.isDigit
  (!ds.isEmpty) && (l.drop ds.length = "p/index.m3u8".data)

/-- The absolute-URI text put in front of the captured rendition tag by
proxyHlsMaster. -/
def masterRewriteBase (baseUrl courseId lessonId videoId : String) :
    List Char :=
  (baseUrl ++ "/api/upload/hls/" ++ courseId ++ "/" ++ lessonId ++ "/"
    ++ videoId ++ "/").data

/-- Rewrite of one master-playlist line: a matching line digits-p-slash-
index.m3u8 becomes the proxy base, the captured digits-p tag and
slash-playlist.m3u8; every other line is left unchanged. -/
def rewriteMasterLine (pre l : List Char) : List Char :=
  if isMasterVariantLine l then
    pre ++ l.takeWhile Char.isDigit ++ "p/playlist.m3u8".data
  else l

/-- The master playlist rewrite of proxyHlsMaster applied to the fetched
master playlist text. -/
def proxyHlsMasterRewrite (baseUrl courseId lessonId videoId : String)
    (content : List Char) : List Char :=
  joinNl ((splitOnNl content).map
    (rewriteMasterLine (masterRewriteBase baseUrl courseId lessonId videoId)))

/-! ## Output prefix and master URL: processJob in
src/workers/transcodeWorker.js -/

/-- Removal of the first occurrence of a pattern, modelling the
JavaScript String.replace with a plain-string pattern and an empty
replacement. -/
def removeFirstOccurrence (pat : List Char) : List Char → List Char
  | [] => []
  | c :: cs =>
    if pat.isPrefixOf (c :: cs) then (c :: cs).drop pat.length
    else c :: removeFirstOccurrence pat cs

/-- Removal of a trailing dot-extension, modelling the JavaScript
String.replace with the regular expression dot, one or more characters
that are neither dot nor slash, end of string — and an empty
replacement. -/
def stripExtAtEnd (s : List Char) : List Char :=
  let r := s.reverse
  let tl := r.takeWhile (fun c => !(c = '.') && !(c = '/'))
  if tl.isEmpty then s
  else
    match r.drop tl.length with
    | '.' :: rest => rest.reverse
    | _ => s

/-- The hlsPrefix computation of processJob in
src/workers/transcodeWorker.js: the first raw-videos/ occurrence and the
trailing extension are removed from the raw object key. -/
def hlsPrefixOfKey (rawVideoKey : String) : List Char :=
  stripExtAtEnd (removeFirstOccurrence "raw-videos/".data rawVideoKey.data)

/-- The hlsStreamUrl computation of processJob in
src/workers/transcodeWorker.js. -/
def hlsStreamUrlOf (baseUrl rawVideoKey : String) : List Char :=
  baseUrl.data ++ "/api/upload/hls/".data ++ hlsPrefixOfKey rawVideoKey
    ++ "/master.m3u8".data

end VideoTranscoder

namespace VideoTranscoder

/-! ## Claim C1 -/

/-- C1: the claim states that a fast job encodes exactly the 360p
rendition and a background job exactly 480p, 720p and 1080p.  Evaluating
the embedded code at a fast job shows all four renditions of the fixed
table are encoded, including 480p, which is outside the fast stage's
target set, although the worker's derived spec does target only 360p. -/
theorem c1_fast_job_encodes_all_renditions :
    (deriveSpec "fast").targetResolutions = ["360p"] ∧
    (deriveSpec "fast").preset = "ultrafast" ∧
    encodedResolutions (workerTranscodeInvocations "in.mp4" "out" "fast")
      = ["360p", "480p", "720p", "1080p"] ∧
    "480p" ∈ encodedResolutions (workerTranscodeInvocations "in.mp4" "out" "fast") ∧
    "480p" ∉ (deriveSpec "fast").targetResolutions := by
  refine ⟨rfl, rfl, rfl, ?_, ?_⟩ <;> decide

/-! ## Claim C2 -/

/-- Left cancellation for string concatenation, used to compare paths
under an arbitrary output directory. -/
theorem string_append_cancel_left {s a b : String}
    (h : s ++ a = s ++ b) : a = b := by
  have h2 : (s ++ a).data = (s ++ b).data := congrArg String.data h
  simp [String.data_append] at h2
  exact String.ext h2

/-- C2: the claim states that after every successful encoder run a master
playlist exists at the master path of the output directory.  Evaluating
the embedded transcodeVideo shows the run writes exactly the four variant
playlists and never the master path: no ffmpeg invocation's output is
(output_dir)/master.m3u8, for any input and output directory. -/
theorem c2_no_master_playlist_written (inputPath outputDir : String) :
    masterPlaylistPath outputDir ∉
      writtenPlaylistPaths (transcodeVideo inputPath outputDir) := by
  intro hmem
  simp only [writtenPlaylistPaths, transcodeVideo, resolutionTable,
    masterPlaylistPath, List.map_cons, List.map_nil, List.mem_cons,
    List.not_mem_nil, or_false] at hmem
  rcases hmem with h | h | h | h <;>
    · rw [String.append_assoc, String.append_assoc] at h
      have := string_append_cancel_left h
      simp_all

/-! ## Claim C3 -/

/-- C3: the claim states that attempts never exceeds maxAttempts because
every incrementing operation preserves the bound.  Evaluating the
embedded failure paths on a job that fails all three queue attempts shows
the worker's catch block increments attempts three times and the queue
failed event listener increments it a fourth time, leaving attempts at 4
with maxAttempts at the schema default 3. -/
theorem c3_attempts_exceed_max_attempts :
    (runPermanentFailure newJobRetryState).attempts = 4 ∧
    (runPermanentFailure newJobRetryState).maxAttempts = 3 ∧
    ¬ (runPermanentFailure newJobRetryState).attempts ≤
        (runPermanentFailure newJobRetryState).maxAttempts := by
  refine ⟨?_, ?_, ?_⟩ <;> decide

/-! ## Claim C4 -/

/-- A concrete processing job used to refute the claimed 409 answer. -/
def processingJobDoc : JobDoc :=
  { jobId := "j1", status := .processing, attempts := 0, maxAttempts := 3
  , errorMsg := none, progress := 40 }

/-- C4 counterexample: the claim states that deleting a processing job is
refused with HTTP 409.  On a store holding one processing job the handler
refuses with HTTP 400, not 409; the record is indeed kept. -/
theorem c4_processing_delete_answers_400 :
    deleteJob [processingJobDoc] "j1" = (400, [processingJobDoc]) ∧
    (deleteJob [processingJobDoc] "j1").1 ≠ 409 := by
  refine ⟨?_, ?_⟩ <;> decide

/-- C4 amended: deleting a processing job is refused with HTTP 400 (not
409) and leaves the store unchanged; a job found in any other status is
removed with HTTP 200; an unknown jobId answers 404 and leaves the store
unchanged. -/
theorem c4_delete_job_behaviour (store : List JobDoc) (jobId : String) :
    (findJob store jobId = none → deleteJob store jobId = (404, store)) ∧
    (∀ j, findJob store jobId = some j → j.status = .processing →
      deleteJob store jobId = (400, store)) ∧
    (∀ j, findJob store jobId = some j → j.status ≠ .processing →
      deleteJob store jobId = (200, removeJobFirst store jobId)) := by
  refine ⟨?_, ?_, ?_⟩
  · intro h; simp [deleteJob, h]
  · intro j hj hs; simp [deleteJob, hj, hs]
  · intro j hj hs; simp [deleteJob, hj, hs]

/-- C4 witness: the amended theorem applied to a one-job store in the
completed status removes the record with HTTP 200. -/
theorem c4_delete_job_behaviour_witness :
    deleteJob [{ jobId := "j2", status := .completed, attempts := 0
               , maxAttempts := 3, errorMsg := none, progress := 100 }] "j2"
      = (200, []) := by
  have h := (c4_delete_job_behaviour
    [{ jobId := "j2", status := .completed, attempts := 0
     , maxAttempts := 3, errorMsg := none, progress := 100 }] "j2").2.2
      { jobId := "j2", status := .completed, attempts := 0
      , maxAttempts := 3, errorMsg := none, progress := 100 }
      (by decide) (by decide)
  simpa using h

/-! ## Claim C5 -/

/-- C5 counterexample: the claim states that a request for a non-existent
segment object answers 404 and an upstream failure answers 502.  On a
missing object the handler answers 500. -/
theorem c5_missing_segment_answers_500 :
    proxyHlsSegment .missing
      = { status := 500, jsonError := true, bytes := [] } ∧
    (proxyHlsSegment .missing).status ≠ 404 := by
  refine ⟨?_, ?_⟩ <;> decide

/-- C5 amended: a missing object or a failed metadata request answers 500
with the JSON error body and no segment bytes; an upstream stream failure
before the first chunk also answers 500 with the JSON error body and no
segment bytes, and a later one truncates a 200 body; no request for a
segment ever answers 404 or 502. -/
theorem c5_segment_proxy_behaviour (obj : SegmentObject) :
    (obj = .missing ∨ obj = .headFailure →
      proxyHlsSegment obj
        = { status := 500, jsonError := true, bytes := [] }) ∧
    (∀ body, obj = .available body (some 0) →
      proxyHlsSegment obj
        = { status := 500, jsonError := true, bytes := [] }) ∧
    (∀ body k, obj = .available body (some k) → 0 < k →
      proxyHlsSegment obj
        = { status := 200, jsonError := false, bytes := body.take k }) ∧
    (proxyHlsSegment obj).status ≠ 404 ∧
    (proxyHlsSegment obj).status ≠ 502 := by
  refine ⟨?_, ?_, ?_, ?_, ?_⟩
  · rintro (rfl | rfl) <;> rfl
  · rintro body rfl
    rfl
  · rintro body k rfl hk
    simp [proxyHlsSegment, Nat.pos_iff_ne_zero.mp hk]
  · rcases obj with _ | _ | ⟨body, _ | k⟩ <;>
      simp [proxyHlsSegment] <;> split <;> simp
  · rcases obj with _ | _ | ⟨body, _ | k⟩ <;>
      simp [proxyHlsSegment] <;> split <;> simp

/-- C5 witness: the amended theorem applied to a missing object answers
500, applied to a stream that dies before the first chunk answers 500
with no bytes, and applied to a stream that dies after one chunk yields a
truncated 200 body. -/
theorem c5_segment_proxy_behaviour_witness :
    proxyHlsSegment .missing
      = { status := 500, jsonError := true, bytes := [] } ∧
    proxyHlsSegment (.available [7, 8, 9] (some 0))
      = { status := 500, jsonError := true, bytes := [] } ∧
    proxyHlsSegment (.available [7, 8, 9] (some 1))
      = { status := 200, jsonError := false, bytes := [7] } := by
  refine ⟨(c5_segment_proxy_behaviour .missing).1 (Or.inl rfl), ?_, ?_⟩
  · exact (c5_segment_proxy_behaviour
      (.available [7, 8, 9] (some 0))).2.1 [7, 8, 9] rfl
  · have h := (c5_segment_proxy_behaviour
      (.available [7, 8, 9] (some 1))).2.2.1 [7, 8, 9] 1 rfl (by decide)
    simpa using h

/-! ## Claim C6 -/

/-- No line that starts with a hash sign matches the segment pattern. -/
theorem isSegmentTsLine_hash (rest : List Char) :
    isSegmentTsLine ('#' :: rest) = false := rfl

/-- C6: the variant-playlist rewrite maps every line matching the segment
pattern to the absolute proxy URI obtained by prefixing the request's
base text, leaves every line beginning with the hash-EXT tag text
byte-for-byte unchanged, and on the scenario playlist rewrites exactly
the two segment lines to absolute proxy URIs. -/
theorem c6_playlist_rewrite
    (baseUrl courseId lessonId videoId quality : String) :
    (∀ l : List Char, isSegmentTsLine l = true →
      rewriteSegmentLine
        (segmentRewriteBase baseUrl courseId lessonId videoId quality) l
        = segmentRewriteBase baseUrl courseId lessonId videoId quality ++ l) ∧
    (∀ l : List Char, "#EXT".data.isPrefixOf l = true →
      rewriteSegmentLine
        (segmentRewriteBase baseUrl courseId lessonId videoId quality) l
        = l) ∧
    proxyHlsPlaylistRewrite "http://h" "c" "l" "v" "360p"
        "#EXTM3U\n#EXTINF:15.0,\nsegment000.ts\nsegment001.ts\n#EXT-X-ENDLIST\n".data
      = ("#EXTM3U\n#EXTINF:15.0,\nhttp://h/api/upload/hls/c/l/v/360p/segment000.ts\n"
          ++ "http://h/api/upload/hls/c/l/v/360p/segment001.ts\n#EXT-X-ENDLIST\n").data := by
  refine ⟨?_, ?_, ?_⟩
  · intro l hl
    simp [rewriteSegmentLine, hl]
  · intro l hl
    rw [List.isPrefixOf_iff_prefix] at hl
    obtain ⟨t, ht⟩ := hl
    rw [show "#EXT".data = '#' :: "EXT".data from rfl] at ht
    obtain rfl : l = '#' :: ("EXT".data ++ t) := by simpa using ht.symm
    simp [rewriteSegmentLine, isSegmentTsLine_hash]
  · decide

/-- C6 witness: the rewrite theorem applied to the line segment000.ts
yields the absolute proxy URI for that segment. -/
theorem c6_playlist_rewrite_witness :
    rewriteSegmentLine
      (segmentRewriteBase "http://h" "c" "l" "v" "360p")
      "segment000.ts".data
      = "http://h/api/upload/hls/c/l/v/360p/segment000.ts".data := by
  have h := (c6_playlist_rewrite "http://h" "c" "l" "v" "360p").1
    "segment000.ts".data (by decide)
  rw [h]
  decide

/-! ## Claim C7 -/

/-- Two decompositions of one list determine the shorter tail as a drop
of the longer tail. -/
theorem shared_eq_drop {α : Type} (t1 t2 a b : List α)
    (h : t1 ++ a = t2 ++ b) (hlen : a.length ≤ b.length) :
    a = b.drop (b.length - a.length) := by
  have hl : t1.length + a.length = t2.length + b.length := by
    simpa using congrArg List.length h
  have ht : t1.length = t2.length + (b.length - a.length) := by omega
  have h1 : a = (t1 ++ a).drop t1.length := (List.drop_left t1 a).symm
  rw [h, ht] at h1
  have h2 : List.drop (t2.length + (b.length - a.length)) (t2 ++ b)
      = b.drop (b.length - a.length) := List.drop_append (b.length - a.length)
  exact h1.trans h2

/-- A rewritten master line never matches the variant pattern again: the
pattern demands the and-suffix p-slash-index.m3u8 after the leading
digits, while a rewritten line ends in slash-playlist.m3u8. -/
theorem isMasterVariantLine_no_rematch (x : List Char) :
    isMasterVariantLine (x ++ "p/playlist.m3u8".data) = false := by
  cases hb : isMasterVariantLine (x ++ "p/playlist.m3u8".data) with
  | false => rfl
  | true =>
    exfalso
    simp only [isMasterVariantLine, Bool.and_eq_true, decide_eq_true_eq] at hb
    obtain ⟨-, hb2⟩ := hb
    have heq :
        (x ++ "p/playlist.m3u8".data).take
            ((x ++ "p/playlist.m3u8".data).takeWhile Char.isDigit).length
          ++ "p/index.m3u8".data = x ++ "p/playlist.m3u8".data := by
      conv_rhs => rw [← List.take_append_drop
        ((x ++ "p/playlist.m3u8".data).takeWhile Char.isDigit).length
        (x ++ "p/playlist.m3u8".data)]
      rw [hb2]
    have hd := shared_eq_drop _ _ _ _ heq (by decide)
    revert hd
    decide

/-- The per-line master rewrite is idempotent. -/
theorem rewriteMasterLine_idem (pre l : List Char) :
    rewriteMasterLine pre (rewriteMasterLine pre l)
      = rewriteMasterLine pre l := by
  cases h : isMasterVariantLine l with
  | false => simp [rewriteMasterLine, h]
  | true =>
    have hfix : rewriteMasterLine pre l
        = (pre ++ l.takeWhile Char.isDigit) ++ "p/playlist.m3u8".data := by
      simp [rewriteMasterLine, h, List.append_assoc]
    rw [hfix, rewriteMasterLine, isMasterVariantLine_no_rematch]
    simp

/-- C7: the master-playlist rewrite is idempotent.  For parameters free
of newline characters, applying the proxyHlsMaster rewrite twice to any
playlist text gives the same result as applying it once: every line the
first pass rewrote has become an absolute proxy URI the pattern no longer
matches, and every other line is reproduced unchanged. -/
theorem c7_master_rewrite_idempotent
    (baseUrl courseId lessonId videoId : String) (content : List Char)
    (hb : '\n' ∉ baseUrl.data) (hc : '\n' ∉ courseId.data)
    (hl : '\n' ∉ lessonId.data) (hv : '\n' ∉ videoId.data) :
    proxyHlsMasterRewrite baseUrl courseId lessonId videoId
        (proxyHlsMasterRewrite baseUrl courseId lessonId videoId content)
      = proxyHlsMasterRewrite baseUrl courseId lessonId videoId content := by
  have k1 : '\n' ∉ "/api/upload/hls/".data := by decide
  have k2 : '\n' ∉ "/".data := by decide
  have hpre : '\n' ∉ masterRewriteBase baseUrl courseId lessonId videoId := by
    simp [masterRewriteBase, String.data_append, hb, hc, hl, hv, k1, k2]
  have hnof : ∀ l ∈ (splitOnNl content).map
      (rewriteMasterLine (masterRewriteBase baseUrl courseId lessonId videoId)),
      '\n' ∉ l := by
    intro l' hl'
    obtain ⟨l, hlmem, rfl⟩ := List.mem_map.mp hl'
    cases h : isMasterVariantLine l with
    | false =>
      rw [rewriteMasterLine, h]
      simp only [Bool.false_eq_true, if_false]
      exact splitOnNl_no_nl content l hlmem
    | true =>
      rw [rewriteMasterLine, h]
      simp only [if_true, List.mem_append, not_or]
      refine ⟨⟨hpre, ?_⟩, by decide⟩
      intro hmem
      have hdig := List.mem_takeWhile_imp hmem
      simp at hdig
  rw [proxyHlsMasterRewrite, proxyHlsMasterRewrite,
    splitOnNl_joinNl _ (by simpa using splitOnNl_ne_nil content) hnof,
    List.map_map]
  congr 1
  apply List.map_congr_left
  intro l hlmem
  exact rewriteMasterLine_idem _ l

/-- C7 witness: rewriting an already rewritten two-variant master
playlist leaves it unchanged. -/
theorem c7_master_rewrite_idempotent_witness :
    proxyHlsMasterRewrite "http://h" "c" "l" "v"
        (proxyHlsMasterRewrite "http://h" "c" "l" "v"
          "#EXTM3U\n360p/index.m3u8\n1080p/index.m3u8\n".data)
      = proxyHlsMasterRewrite "http://h" "c" "l" "v"
          "#EXTM3U\n360p/index.m3u8\n1080p/index.m3u8\n".data := by
  exact c7_master_rewrite_idempotent "http://h" "c" "l" "v"
    "#EXTM3U\n360p/index.m3u8\n1080p/index.m3u8\n".data
    (by decide) (by decide) (by decide) (by decide)

/-! ## Claim C8 -/

/-- Removing a pattern that sits at the front of a list leaves exactly
the tail after the pattern. -/
theorem removeFirstOccurrence_append (pat rest : List Char)
    (hne : pat ≠ []) :
    removeFirstOccurrence pat (pat ++ rest) = rest := by
  have hpre : pat.isPrefixOf (pat ++ rest) = true :=
    List.isPrefixOf_iff_prefix.mpr (List.prefix_append pat rest)
  rcases h : pat ++ rest with _ | ⟨c, cs⟩
  · rcases pat with _ | ⟨p, ps⟩
    · exact absurd rfl hne
    · simp at h
  · rw [← h, show removeFirstOccurrence pat (pat ++ rest)
        = if pat.isPrefixOf (pat ++ rest) then (pat ++ rest).drop pat.length
          else (pat ++ rest).headD c ::
            removeFirstOccurrence pat ((pat ++ rest).tail) by rw [h]; rfl]
    rw [if_pos hpre, List.drop_left]

/-- takeWhile over a block that satisfies the predicate followed by a
stopper returns exactly the block. -/
theorem takeWhile_append_stop (p : Char → Bool) (a : List Char) (x : Char)
    (b : List Char) (ha : ∀ c ∈ a, p c = true) (hx : p x = false) :
    (a ++ x :: b).takeWhile p = a := by
  induction a with
  | nil => simp [List.takeWhile_cons, hx]
  | cons c cs ih =>
    rw [List.cons_append, List.takeWhile_cons, ha c (by simp)]
    simp only [if_true]
    rw [ih (fun d hd => ha d (by simp [hd]))]

/-- Stripping the trailing extension from a name-dot-extension list
returns the name, when the extension is nonempty and free of dots and
slashes. -/
theorem stripExtAtEnd_append (n e : List Char) (hne : e ≠ [])
    (he : ∀ c ∈ e, c ≠ '.' ∧ c ≠ '/') :
    stripExtAtEnd (n ++ '.' :: e) = n := by
  have hr : (n ++ '.' :: e).reverse = e.reverse ++ '.' :: n.reverse := by
    rw [List.reverse_append]
    simp
  have hp : ∀ c ∈ e.reverse, (!(c = '.') && !(c = '/')) = true := by
    intro c hc
    have := he c (List.mem_reverse.mp hc)
    simp [this.1, this.2]
  have htw : (e.reverse ++ '.' :: n.reverse).takeWhile
      (fun c => !(c = '.') && !(c = '/')) = e.reverse :=
    takeWhile_append_stop _ _ _ _ hp (by simp)
  rw [stripExtAtEnd]
  simp only [hr, htw]
  rw [if_neg (by simp [List.isEmpty_iff, hne]), List.drop_left]
  simp

/-- C8: the worker computes the output prefix of a raw object key of the
canonical shape raw-videos slash name dot extension as the bare name, and
on success builds hls stream url as the base URL, the api-upload-hls
mount, the output prefix and master.m3u8 — for every name, every
dot-free slash-free nonempty extension and every base URL. -/
theorem c8_output_prefix_and_master_url (base name ext : String)
    (hne : ext.data ≠ [])
    (hext : ∀ c ∈ ext.data, c ≠ '.' ∧ c ≠ '/') :
    hlsPrefixOfKey ("raw-videos/" ++ name ++ "." ++ ext) = name.data ∧
    hlsStreamUrlOf base ("raw-videos/" ++ name ++ "." ++ ext)
      = (base ++ "/api/upload/hls/" ++ name ++ "/master.m3u8").data := by
  have hkey : ("raw-videos/" ++ name ++ "." ++ ext).data
      = "raw-videos/".data ++ (name.data ++ '.' :: ext.data) := by
    simp [String.data_append, List.append_assoc]
  have hpre : hlsPrefixOfKey ("raw-videos/" ++ name ++ "." ++ ext)
      = name.data := by
    rw [hlsPrefixOfKey, hkey,
      removeFirstOccurrence_append _ _ (by decide),
      stripExtAtEnd_append _ _ hne hext]
  refine ⟨hpre, ?_⟩
  rw [hlsStreamUrlOf, hpre]
  simp [String.data_append, List.append_assoc]

/-- C8 witness: the theorem applied to the key raw-videos slash abc-movie
dot mp4 produces the prefix abc-movie and the proxied master URL under
the api-upload mount. -/
theorem c8_output_prefix_witness :
    hlsPrefixOfKey "raw-videos/abc-movie.mp4" = "abc-movie".data ∧
    hlsStreamUrlOf "http://localhost:2000" "raw-videos/abc-movie.mp4"
      = ("http://localhost:2000/api/upload/hls/abc-movie/master.m3u8").data := by
  have h := c8_output_prefix_and_master_url "http://localhost:2000"
    "abc-movie" "mp4" (by decide) (by decide)
  have e1 : ("raw-videos/" ++ "abc-movie" ++ "." ++ "mp4" : String)
      = "raw-videos/abc-movie.mp4" := by decide
  rw [e1] at h
  refine ⟨h.1, ?_⟩
  rw [h.2]
  decide

/-! ## Claim C9 -/

/-- C9 counterexample: the claim states that every extension other than
.m3u8 and .ts is mapped to application/octet-stream.  The extension .png
is mapped to image/png. -/
theorem c9_png_not_octet_stream :
    getContentType "folder/x.png" = "image/png" ∧
    getContentType "folder/x.png" ≠ "application/octet-stream" := by
  refine ⟨?_, ?_⟩ <;> decide

/-- C9 amended: the content-type inference is a total function of the
lowercased file extension, mapping .m3u8 to application/vnd.apple.mpegurl,
.ts to video/MP2T, .png to image/png, .jpg and .jpeg to image/jpeg, and
every path whose lowercased extension is none of those five to
application/octet-stream. -/
theorem c9_content_type_of_extension :
    (∀ p q : String, extnameLower p = extnameLower q →
      getContentType p = getContentType q) ∧
    (∀ p : String,
      extnameLower p ≠ ".m3u8".data →
      extnameLower p ≠ ".ts".data →
      extnameLower p ≠ ".png".data →
      extnameLower p ≠ ".jpg".data →
      extnameLower p ≠ ".jpeg".data →
      getContentType p = "application/octet-stream") ∧
    getContentType "a.m3u8" = "application/vnd.apple.mpegurl" ∧
    getContentType "a.ts" = "video/MP2T" ∧
    getContentType "a.png" = "image/png" ∧
    getContentType "a.jpg" = "image/jpeg" ∧
    getContentType "a.jpeg" = "image/jpeg" ∧
    getContentType "a.mp4" = "application/octet-stream" ∧
    getContentType "a" = "application/octet-stream" := by
  refine ⟨?_, ?_, ?_, ?_, ?_, ?_, ?_, ?_, ?_⟩
  · intro p q h
    simp only [getContentType, h]
  · intro p h1 h2 h3 h4 h5
    simp [getContentType, h1, h2, h3, h4, h5]
  all_goals decide

/-- C9 witness: the amended theorem applied to two paths whose extensions
agree up to case shows they receive the same content type, and applied to
a path with the extension .webm, which is none of the five dispatch
cases, shows it receives application/octet-stream. -/
theorem c9_content_type_of_extension_witness :
    getContentType "dir/a.TS" = getContentType "other/b.ts" ∧
    getContentType "a.webm" = "application/octet-stream" := by
  refine ⟨c9_content_type_of_extension.1 "dir/a.TS" "other/b.ts" (by decide),
    c9_content_type_of_extension.2.1 "a.webm"
      (by decide) (by decide) (by decide) (by decide) (by decide)⟩

/-! ## Claim C10 -/

/-- C10: for a failed job the status response carries attempts,
maxAttempts, the stored error message and canRetry equal to the test
attempts < maxAttempts; for a job in any other status none of the four
failure fields is attached. -/
theorem c10_status_failure_fields (j : JobDoc) :
    (j.status = .failed →
      (getJobStatusView j).attemptsField = some j.attempts ∧
      (getJobStatusView j).maxAttemptsField = some j.maxAttempts ∧
      (getJobStatusView j).errorField = j.errorMsg ∧
      (getJobStatusView j).canRetryField
        = some (decide (j.attempts < j.maxAttempts))) ∧
    (j.status ≠ .failed →
      (getJobStatusView j).attemptsField = none ∧
      (getJobStatusView j).maxAttemptsField = none ∧
      (getJobStatusView j).errorField = none ∧
      (getJobStatusView j).canRetryField = none) := by
  constructor
  · intro h; simp [getJobStatusView, h]
  · intro h; simp [getJobStatusView, h]

/-- C10 witness: the theorem applied to a concrete failed job with two of
three attempts used shows all four failure fields, with canRetry true. -/
theorem c10_status_failure_fields_witness :
    (getJobStatusView
      { jobId := "j3", status := .failed, attempts := 2, maxAttempts := 3
      , errorMsg := some "boom", progress := 10 }).canRetryField
        = some true ∧
    (getJobStatusView
      { jobId := "j3", status := .failed, attempts := 2, maxAttempts := 3
      , errorMsg := some "boom", progress := 10 }).errorField
        = some "boom" := by
  have h := (c10_status_failure_fields
    { jobId := "j3", status := .failed, attempts := 2, maxAttempts := 3
    , errorMsg := some "boom", progress := 10 }).1 rfl
  exact ⟨h.2.2.2, h.2.2.1⟩

end VideoTranscoder
